import Mathlib

/-!
# Verification of the realsense2_camera stream-synchronization core

A shallow embedding, in Lean 4, of the frame-processing and stream-synchronization
pipeline implemented in `realsense2_camera/src/base_realsense_node.cpp`:

* `SyncedImuPublisher` (the backpressure gate wrapping the unified-inertial sink),
* `setBaseTime` and the device-to-host timestamp conversion,
* `FillImuData_LinearInterpolation` (the linear-interpolation IMU pairing policy),
* the frame-set deduplication loop of `frame_callback`,
* `clip_depth` and its call-site guard,
* `updateStreamCalibData` / `updateExtrinsicsCalibData` (calibration records),
* `SetBaseStream` (base-stream selection for the static frame graph).

C++ `double`/`float` values are modelled as exact rationals (`ℚ`); 16-bit depth
pixels are modelled as `ℕ` with the `uint16_t` conversion made explicit by a
`% 65536` reduction.  Stateful C++ (member fields, function-local `static`
variables) is modelled by explicit state passing, and `throw` by `Except`.
-/

namespace RealSense

/-- The `rs2_stream` kinds used by the node (from the spec's data model:
color, depth, confidence, infrared, gyro, accel, pose). -/
inductive Rs2Stream where
  | depth
  | color
  | infrared
  | confidence
  | fisheye
  | gyro
  | accel
  | pose
  deriving DecidableEq, Repr

/-- `stream_index_pair`: a stream kind together with its index.  This is the
sole routing/calibration key (`StreamIdentity` in the spec). -/
abbrev stream_index_pair := Rs2Stream × ℕ

/-- Modelled from the spec: the constant `DEPTH` stream identity declared in the
node's headers (not under `src/`); the depth kind at index 0. -/
def DEPTH : stream_index_pair := (Rs2Stream.depth, 0)

/-- Modelled from the spec: the constant `POSE` stream identity declared in the
node's headers (not under `src/`); the pose kind at index 0. -/
def POSE : stream_index_pair := (Rs2Stream.pose, 0)

/-- Modelled from the spec: the constant `GYRO` stream identity declared in the
node's headers (not under `src/`); the gyro kind at index 0. -/
def GYRO : stream_index_pair := (Rs2Stream.gyro, 0)

/-- Modelled from the spec: the constant `ACCEL` stream identity declared in the
node's headers (not under `src/`); the accel kind at index 0. -/
def ACCEL : stream_index_pair := (Rs2Stream.accel, 0)

/-- A 3-vector of exact rationals (models `Eigen::Vector3d` / `float3`). -/
structure Vec3 where
  x : ℚ
  y : ℚ
  z : ℚ
  deriving DecidableEq, Repr

/-- The unified inertial reading produced by `CreateUnitedMessage`:
a `sensor_msgs::msg::Imu` restricted to the fields the node fills in
(stamp, angular velocity from the gyro, linear acceleration from the accel). -/
structure ImuMsg where
  stamp : ℚ
  angular_velocity : Vec3
  linear_acceleration : Vec3
  deriving DecidableEq, Repr

/-!
## SyncedImuPublisher (the BackpressureGate)

State of the `SyncedImuPublisher` object.  The C++ members `_pause_mode`,
`_pending_messages` (a FIFO `std::queue`), `_waiting_list_size` and
`_is_enabled` are fields; the downstream `_publisher` is modelled by the
`published` trace, which records every message handed to
`_publisher->publish(...)` in order.
-/

structure SyncedImuPublisher where
  pause_mode : Bool
  pending_messages : List ImuMsg
  waiting_list_size : ℕ
  is_enabled : Bool
  published : List ImuMsg
  deriving DecidableEq, Repr

namespace SyncedImuPublisher

/-- `SyncedImuPublisher::Publish`.  While paused, a full waiting list makes the
call `throw` (modelled by `Except.error`) *before* any mutation, so the state
returned alongside the error is exactly the entry state; otherwise the message
is appended to the pending FIFO.  While flowing, the message goes directly
downstream. -/
def Publish (s : SyncedImuPublisher) (imu_msg : ImuMsg) :
    Except String Unit × SyncedImuPublisher :=
  if s.pause_mode then
    if s.waiting_list_size ≤ s.pending_messages.length then
      (Except.error ("SyncedImuPublisher inner list reached maximum size of "
          ++ toString s.pending_messages.length), s)
    else
      (Except.ok (), { s with pending_messages := s.pending_messages ++ [imu_msg] })
  else
    (Except.ok (), { s with published := s.published ++ [imu_msg] })

/-- `SyncedImuPublisher::Pause`: a no-op when disabled, otherwise enters pause
mode. -/
def Pause (s : SyncedImuPublisher) : SyncedImuPublisher :=
  if s.is_enabled = false then s else { s with pause_mode := true }

/-- `SyncedImuPublisher::PublishPendingMessages`: drains the pending FIFO to the
downstream publisher, front first. -/
def PublishPendingMessages (s : SyncedImuPublisher) : SyncedImuPublisher :=
  { s with published := s.published ++ s.pending_messages, pending_messages := [] }

/-- `SyncedImuPublisher::Resume`: flushes the pending FIFO, then leaves pause
mode. -/
def Resume (s : SyncedImuPublisher) : SyncedImuPublisher :=
  { s.PublishPendingMessages with pause_mode := false }

/-- Sequencing of several `Publish` calls; stops at the first thrown error,
returning it together with the state at that point. -/
def PublishList (s : SyncedImuPublisher) : List ImuMsg →
    Except String Unit × SyncedImuPublisher
  | [] => (Except.ok (), s)
  | m :: rest =>
    match Publish s m with
    | (Except.ok _, s1) => PublishList s1 rest
    | (Except.error e, s1) => (Except.error e, s1)

end SyncedImuPublisher

/-!
## TimeBase: `setBaseTime` and device-to-host timestamp conversion
-/

/-- The time anchor recorded by `BaseRealSenseNode::setBaseTime`: the members
`_ros_time_base` (host clock, nanoseconds) and `_camera_time_base` (device
clock, milliseconds). -/
structure TimeBase where
  ros_time_base : ℚ
  camera_time_base : ℚ
  deriving DecidableEq, Repr

/-- `BaseRealSenseNode::setBaseTime`: records the current host time and the
frame's device timestamp as the anchor pair. -/
def setBaseTime (host_now frame_time : ℚ) : TimeBase :=
  { ros_time_base := host_now, camera_time_base := frame_time }

/-- The conversion applied to every later device timestamp (in
`imu_callback_sync`, `imu_callback`, `pose_callback` and `frame_callback`):
`elapsed_camera_ns = (frame_time - _camera_time_base) * 1e6` and the resulting
stamp `_ros_time_base + Duration(elapsed_camera_ns)`. -/
def to_host_time (tb : TimeBase) (frame_time : ℚ) : ℚ :=
  tb.ros_time_base + (frame_time - tb.camera_time_base) * 1000000

/-!
## ImuSynchronizer: the linear-interpolation policy
-/

/-- Modelled from the spec: `CimuData` is declared in `base_realsense_node.h`
(not under `src/`).  Per the spec's data model it is an inertial sample
`{stream kind, vector (3 floats), device_time_ns, is_set flag}` whose "unset
sentinel represents 'no prior sample yet'": a default-constructed `CimuData`
has `is_set` false, and every sample built from a callback reading has `is_set`
true. -/
structure CimuData where
  m_type : stream_index_pair
  m_data : Vec3
  m_time_ns : ℚ
  is_set : Bool
  deriving DecidableEq, Repr

/-- The default-constructed (unset-sentinel) `CimuData`. -/
def CimuData.unset : CimuData :=
  { m_type := ACCEL, m_data := ⟨0, 0, 0⟩, m_time_ns := -1, is_set := false }

/-- The file-local template `lerp(a, b, t) = a * (1.0 - t) + b * t`. -/
def lerp (a b t : ℚ) : ℚ :=
  a * (1 - t) + b * t

/-- `lerp` applied to Eigen 3-vectors acts componentwise. -/
def lerpVec3 (a b : Vec3) (t : ℚ) : Vec3 :=
  ⟨lerp a.x b.x t, lerp a.y b.y t, lerp a.z b.z t⟩

/-- `BaseRealSenseNode::CreateUnitedMessage`: stamps the unified message with
the gyro sample's time, angular velocity from the gyro data and linear
acceleration from the accel data. -/
def CreateUnitedMessage (accel_data gyro_data : CimuData) : ImuMsg :=
  { stamp := gyro_data.m_time_ns
    angular_velocity := gyro_data.m_data
    linear_acceleration := accel_data.m_data }

/-- The interpolated unified message built inside the drain loop of
`FillImuData_LinearInterpolation` for one gyro sample, from the surrounding
accel pair: `alpha = (gyro_time - accel0_time) / dt` with
`dt = accel1_time - accel0_time`, and the accel vector
`lerp(accel0_data, accel1_data, alpha)`. -/
def unitedOf (accel0 accel1 crnt_gyro : CimuData) : ImuMsg :=
  let dt := accel1.m_time_ns - accel0.m_time_ns
  let alpha := (crnt_gyro.m_time_ns - accel0.m_time_ns) / dt
  CreateUnitedMessage
    { m_type := ACCEL, m_data := lerpVec3 accel0.m_data accel1.m_data alpha
      m_time_ns := crnt_gyro.m_time_ns, is_set := true }
    crnt_gyro

/-- The `while (_imu_history.size())` drain loop of
`FillImuData_LinearInterpolation`, with the loop locals made explicit:
`accel0` (initially default-constructed, hence unset), the `gyros_data` FIFO,
the `imu_msgs` output accumulator, and `crnt_imu` (the last sample popped,
pushed back as seed once the loop ends).  The three guarded branches are the
source's, in order; when a second accel arrives, the inner
`while (gyros_data.size())` loop emits one interpolated united message per
accumulated gyro, front first, which is `gyros.map (unitedOf accel0 crnt)`. -/
def imuDrain : List CimuData → CimuData → List CimuData → List ImuMsg → CimuData →
    List ImuMsg × CimuData
  | [], _, _, imu_msgs, crnt_imu => (imu_msgs, crnt_imu)
  | crnt :: rest, accel0, gyros, imu_msgs, _ =>
    if accel0.is_set = false ∧ crnt.m_type = ACCEL then
      imuDrain rest crnt gyros imu_msgs crnt
    else if accel0.is_set = true ∧ crnt.m_type = ACCEL then
      imuDrain rest crnt [] (imu_msgs ++ gyros.map (unitedOf accel0 crnt)) crnt
    else if accel0.is_set = true ∧ accel0.m_time_ns ≤ crnt.m_time_ns ∧
        crnt.m_type = GYRO then
      imuDrain rest accel0 (gyros ++ [crnt]) imu_msgs crnt
    else
      imuDrain rest accel0 gyros imu_msgs crnt

/-- `BaseRealSenseNode::FillImuData_LinearInterpolation`.  The function-local
`static std::deque<CimuData> _imu_history` is passed (and returned) explicitly.
The incoming sample is appended to the history; a non-accel sample, or a
post-append history shorter than 3, returns with no output; otherwise the whole
history is drained and the last consumed sample is pushed back as the new
history. -/
def FillImuData_LinearInterpolation (imu_history : List CimuData)
    (imu_data : CimuData) : List CimuData × List ImuMsg :=
  if imu_data.m_type ≠ ACCEL ∨ (imu_history ++ [imu_data]).length < 3 then
    (imu_history ++ [imu_data], [])
  else
    ([(imuDrain (imu_history ++ [imu_data]) CimuData.unset [] [] CimuData.unset).2],
      (imuDrain (imu_history ++ [imu_data]) CimuData.unset [] [] CimuData.unset).1)

/-- A well-formed continuation of an IMU history starting from the accel sample
`accel0`: a list of segments, each a run of gyro samples followed by the next
accel sample.  Every gyro in a segment is gyro-typed and timestamped between
the two accel samples surrounding it; every accel sample is accel-typed,
`is_set`, and strictly later than its predecessor. -/
def chainOk : CimuData → List (List CimuData × CimuData) → Prop
  | _, [] => True
  | accel0, (gyros, accel1) :: rest =>
    (∀ g ∈ gyros, g.m_type = GYRO ∧ accel0.m_time_ns ≤ g.m_time_ns ∧
      g.m_time_ns ≤ accel1.m_time_ns) ∧
    accel1.m_type = ACCEL ∧ accel1.is_set = true ∧
    accel0.m_time_ns < accel1.m_time_ns ∧ chainOk accel1 rest

/-- Flattens a list of (gyro-run, accel) segments back into the raw
arrival-order sample sequence. -/
def flattenPairs : List (List CimuData × CimuData) → List CimuData
  | [] => []
  | (gyros, accel1) :: rest => gyros ++ accel1 :: flattenPairs rest

/-- The expected output of a drain over segments: for each segment, one united
message per gyro sample (in arrival order), interpolated between the
surrounding accel pair. -/
def expectedOut : CimuData → List (List CimuData × CimuData) → List ImuMsg
  | _, [] => []
  | accel0, (gyros, accel1) :: rest =>
    gyros.map (unitedOf accel0 accel1) ++ expectedOut accel1 rest

/-- The last accel sample of a segment list (its seed when empty). -/
def lastAccel : CimuData → List (List CimuData × CimuData) → CimuData
  | accel0, [] => accel0
  | _, (_, accel1) :: rest => lastAccel accel1 rest

/-!
## Base-stream selection (`BaseRealSenseNode::SetBaseStream`)
-/

/-- The fixed priority vector `base_stream_priority = {DEPTH, POSE}`. -/
def base_stream_priority : List stream_index_pair := [DEPTH, POSE]

/-- Possible outcomes of running `SetBaseStream`.  `derefPastEnd` marks the
point where the source evaluates `*base_stream` with
`base_stream == base_stream_priority.end()`: dereferencing the past-the-end
iterator, which has no defined value. -/
inductive BaseStreamOutcome where
  | selected (sip : stream_index_pair)
  | fatal (msg : String)
  | derefPastEnd
  deriving DecidableEq, Repr

/-- The `while` loop of `SetBaseStream`, with the iterator `base_stream`
represented by the priority vector's remaining suffix `[base_stream, end)`
(so `*base_stream` is the suffix's head and `base_stream == end()` is the
suffix being empty).  The source's loop condition is
`(available_profiles.find(*base_stream) == end()) && (base_stream != end())`,
which evaluates `*base_stream` first; the model therefore reads the head
before anything else, and reading it from the empty suffix — dereferencing the
past-the-end iterator — is the `derefPastEnd` outcome.  When the loop exits
because the current entry was found, the post-loop
`if (base_stream == end()) throw` cannot fire, and the entry is selected;
exiting at the end without the dereference is impossible, so the throw
(`BaseStreamOutcome.fatal`) is unreachable. -/
def SetBaseStreamLoop (available : List stream_index_pair) :
    List stream_index_pair → BaseStreamOutcome
  | [] => BaseStreamOutcome.derefPastEnd
  | p :: rest =>
    if p ∈ available then BaseStreamOutcome.selected p
    else SetBaseStreamLoop available rest

/-- `BaseRealSenseNode::SetBaseStream`, starting the scan at
`base_stream_priority.begin()` over the set of currently available stream
identities. -/
def SetBaseStream (available : List stream_index_pair) : BaseStreamOutcome :=
  SetBaseStreamLoop available base_stream_priority

/-!
## Frame-set deduplication (`BaseRealSenseNode::frame_callback`)
-/

/-- A member frame of a post-filter frame-set, restricted to what the dedup
loop inspects: its profile's stream type and index, whether it is a
reconstructed 3-D point-cloud frame (`f.is<rs2::points>()`), and a frame
number to tell otherwise-identical frames apart. -/
structure RsFrame where
  stream_type : Rs2Stream
  stream_index : ℕ
  is_points : Bool
  frame_number : ℕ
  deriving DecidableEq, Repr

/-- The `stream_index_pair sip{stream_type, stream_index}` built for a frame. -/
def RsFrame.sip (f : RsFrame) : stream_index_pair :=
  (f.stream_type, f.stream_index)

/-- The dedup loop of `frame_callback` ("Remove streams with same type and
index"), with its locals `points_in_set`, `is_in_set` and `frames_to_publish`
made explicit.  A point-cloud frame is kept only if none was kept before; any
other frame is kept only if its stream identity has not been seen before. -/
def dedupLoop : List RsFrame → Bool → List stream_index_pair → List RsFrame →
    List RsFrame
  | [], _, _, frames_to_publish => frames_to_publish
  | f :: rest, points_in_set, is_in_set, frames_to_publish =>
    if f.is_points then
      if points_in_set = false then
        dedupLoop rest true is_in_set (frames_to_publish ++ [f])
      else
        dedupLoop rest points_in_set is_in_set frames_to_publish
    else if f.sip ∈ is_in_set then
      dedupLoop rest points_in_set is_in_set frames_to_publish
    else
      dedupLoop rest points_in_set (is_in_set ++ [f.sip]) (frames_to_publish ++ [f])

/-- The frames selected for publishing from a post-filter frame-set, walking it
in iteration order with both dedup locals initially empty. -/
def framesToPublish (frameset : List RsFrame) : List RsFrame :=
  dedupLoop frameset false [] []

/-!
## Depth clipping (`BaseRealSenseNode::clip_depth` and its call-site guard)
-/

/-- The threshold `static_cast<uint16_t>(clipping_dist / _depth_scale_meters)`:
the quotient truncated to an integer and reduced to the 16-bit range. -/
def clipping_value (clipping_dist depth_scale_meters : ℚ) : ℕ :=
  (Int.toNat (Rat.floor (clipping_dist / depth_scale_meters))) % 65536

/-- `BaseRealSenseNode::clip_depth`: every 16-bit depth pixel strictly greater
than the threshold is set to 0 (invalid); the pixel loop over
`y * width + x` visits each pixel of the buffer exactly once, in order. -/
def clip_depth (depth_scale_meters : ℚ) (p_depth_frame : List ℕ)
    (clipping_dist : ℚ) : List ℕ :=
  let cv := clipping_value clipping_dist depth_scale_meters
  p_depth_frame.map (fun p => if cv < p then 0 else p)

/-- The call-site guard in `frame_callback`: `clip_depth` runs only when
`_clipping_distance > 0`; otherwise the depth buffer is untouched. -/
def clip_depth_guarded (depth_scale_meters : ℚ) (p_depth_frame : List ℕ)
    (clipping_distance : ℚ) : List ℕ :=
  if 0 < clipping_distance then
    clip_depth depth_scale_meters p_depth_frame clipping_distance
  else
    p_depth_frame

/-!
## Calibration records (`updateStreamCalibData` / `updateExtrinsicsCalibData`)
-/

/-- The per-stream `sensor_msgs::msg::CameraInfo` record, restricted to the
fields the node writes: dimensions, distortion model and coefficients, the
3x3 intrinsic matrix `k`, the 3x3 rectification matrix `r` and the 3x4
projection matrix `p` (all row-major). -/
structure CameraInfo where
  width : ℕ
  height : ℕ
  distortion_model : String
  d : List ℚ
  k : List ℚ
  r : List ℚ
  p : List ℚ
  deriving DecidableEq, Repr

/-- The device intrinsics consumed by `updateStreamCalibData`. -/
structure Rs2Intrinsics where
  width : ℕ
  height : ℕ
  fx : ℚ
  fy : ℚ
  ppx : ℚ
  ppy : ℚ
  is_kannala_brandt4 : Bool
  coeffs : List ℚ
  deriving DecidableEq, Repr

/-- `BaseRealSenseNode::updateStreamCalibData`, building one stream's
`CameraInfo` from its intrinsics: focal lengths and principal point into `k`
(other entries stay at the message default 0), a projection `p` mirroring `k`
with zero translation, identity rotation `r`, the first five distortion
coefficients, and the two-valued distortion-model tag.  The flag
`depth_alongside_color` is the call-site condition
`stream_index == DEPTH && _enable[DEPTH] && _enable[COLOR]`, under which the
projection's translation terms `p[3]` and `p[7]` are (re)set to zero. -/
def updateStreamCalibData (intrinsic : Rs2Intrinsics)
    (depth_alongside_color : Bool) : CameraInfo :=
  let k := [intrinsic.fx, 0, intrinsic.ppx, 0, intrinsic.fy, intrinsic.ppy, 0, 0, 1]
  let p := [intrinsic.fx, 0, intrinsic.ppx, 0,
            0, intrinsic.fy, intrinsic.ppy, 0,
            0, 0, 1, 0]
  let p := if depth_alongside_color then (p.set 3 0).set 7 0 else p
  { width := intrinsic.width
    height := intrinsic.height
    distortion_model :=
      if intrinsic.is_kannala_brandt4 then "equidistant" else "plumb_bob"
    d := [intrinsic.coeffs.getD 0 0, intrinsic.coeffs.getD 1 0,
          intrinsic.coeffs.getD 2 0, intrinsic.coeffs.getD 3 0,
          intrinsic.coeffs.getD 4 0]
    k := k
    r := [1, 0, 0, 0, 1, 0, 0, 0, 1]
    p := p }

/-- An `rs2_extrinsics`: a 9-entry rotation array and a 3-entry translation. -/
structure Rs2Extrinsics where
  rotation : List ℚ
  translation : List ℚ
  deriving DecidableEq, Repr

/-- `BaseRealSenseNode::updateExtrinsicsCalibData`.  Given the relative
extrinsics `LEFT_T_RIGHT = right.get_extrinsics_to(left)` and the two streams'
records, it zeroes the translation's y and z components, forms
`RT = [R | T]` (with `R` the row-major reading of the rotation array, as
`Eigen::Map<Matrix<float,3,3,RowMajor>>` does), computes
`P_right = K_right * RT`, and writes only the right record's `r` (the raw
rotation entries) and `p` (the entries of `P_right`, row-major); the left
record is returned untouched. -/
def updateExtrinsicsCalibData (LEFT_T_RIGHT : Rs2Extrinsics)
    (ci_left ci_right : CameraInfo) : CameraInfo × CameraInfo :=
  let T : ℕ → ℚ := fun i => if i = 0 then LEFT_T_RIGHT.translation.getD 0 0 else 0
  let R : ℕ → ℕ → ℚ := fun i j => LEFT_T_RIGHT.rotation.getD (3 * i + j) 0
  let K : ℕ → ℕ → ℚ := fun i j => ci_right.k.getD (3 * i + j) 0
  let P : ℕ → ℕ → ℚ := fun i j =>
    if j < 3 then K i 0 * R 0 j + K i 1 * R 1 j + K i 2 * R 2 j
    else K i 0 * T 0 + K i 1 * T 1 + K i 2 * T 2
  (ci_left,
    { ci_right with
      r := [LEFT_T_RIGHT.rotation.getD 0 0, LEFT_T_RIGHT.rotation.getD 1 0,
            LEFT_T_RIGHT.rotation.getD 2 0, LEFT_T_RIGHT.rotation.getD 3 0,
            LEFT_T_RIGHT.rotation.getD 4 0, LEFT_T_RIGHT.rotation.getD 5 0,
            LEFT_T_RIGHT.rotation.getD 6 0, LEFT_T_RIGHT.rotation.getD 7 0,
            LEFT_T_RIGHT.rotation.getD 8 0]
      p := [P 0 0, P 0 1, P 0 2, P 0 3,
            P 1 0, P 1 1, P 1 2, P 1 3,
            P 2 0, P 2 1, P 2 2, P 2 3] })

/-!
## The frame-callback boundary (`BaseRealSenseNode::frame_callback`)
-/

/-- The exception/backpressure skeleton of `frame_callback`: the gate is
paused, the whole frame-set processing path runs inside `try { ... }` (its
outcome modelled by an `Except` value, since the processing path never touches
the gate itself), `catch (const std::exception&)` logs and swallows any error,
and `Resume` runs after the try/catch on both paths. -/
def frame_callback_gate (gate : SyncedImuPublisher)
    (processing : Except String Unit) : SyncedImuPublisher :=
  let paused := gate.Pause
  match processing with
  | Except.ok _ => paused.Resume
  | Except.error _ => paused.Resume

/-!
## Theorems
-/

/-- C4: after the anchor `(host_anchor, device_anchor)` is set by `setBaseTime`,
the device-to-host conversion is linear and monotonic: for any two device times
`d1 < d2`, `to_host_time d2 - to_host_time d1` equals `(d2 - d1)` scaled to
nanoseconds (the millisecond delta times 1e6) exactly, and host times preserve
the order of device times. -/
theorem to_host_time_linear (host_anchor device_anchor d1 d2 : ℚ)
    (h : d1 < d2) :
    to_host_time (setBaseTime host_anchor device_anchor) d2 -
        to_host_time (setBaseTime host_anchor device_anchor) d1 =
      (d2 - d1) * 1000000
    ∧ to_host_time (setBaseTime host_anchor device_anchor) d1 <
        to_host_time (setBaseTime host_anchor device_anchor) d2 := by
  constructor
  · simp only [to_host_time, setBaseTime]
    ring
  · simp only [to_host_time, setBaseTime]
    nlinarith [h]

/-- Witness for C4 at the concrete anchor `(100, 3)` and device times `5 < 7`. -/
theorem to_host_time_linear_witness :
    (5 : ℚ) < 7
    ∧ (to_host_time (setBaseTime 100 3) 7 - to_host_time (setBaseTime 100 3) 5 =
          ((7 : ℚ) - 5) * 1000000
      ∧ to_host_time (setBaseTime 100 3) 5 < to_host_time (setBaseTime 100 3) 7) :=
  ⟨by norm_num, to_host_time_linear 100 3 5 7 (by norm_num)⟩

/-- C8: the frame callback pauses the gate, runs the whole frame-set processing
path inside a try/catch that swallows any exception, and resumes the gate
afterwards on both the success and the failure path; so the callback's result
does not depend on the processing outcome, the gate ends flowing (not paused),
and every deferred inertial message is flushed downstream in order. -/
theorem frame_callback_gate_spec (gate : SyncedImuPublisher)
    (processing : Except String Unit) :
    frame_callback_gate gate processing = frame_callback_gate gate (Except.ok ())
    ∧ (frame_callback_gate gate processing).pause_mode = false
    ∧ (frame_callback_gate gate processing).pending_messages = []
    ∧ (frame_callback_gate gate processing).published =
        gate.published ++ gate.pending_messages := by
  cases processing <;>
    cases h : gate.is_enabled <;>
      simp [frame_callback_gate, SyncedImuPublisher.Pause, SyncedImuPublisher.Resume,
        SyncedImuPublisher.PublishPendingMessages, h]

/-- C9: a `Publish` while paused with the pending queue already at the waiting
list's capacity throws and leaves the publisher's state exactly as it was: the
pending queue keeps the same messages in the same order, nothing is enqueued or
lost, and the gate stays paused. -/
theorem Publish_overflow_atomic (s : SyncedImuPublisher) (imu_msg : ImuMsg)
    (hpause : s.pause_mode = true)
    (hfull : s.pending_messages.length = s.waiting_list_size) :
    SyncedImuPublisher.Publish s imu_msg =
      (Except.error ("SyncedImuPublisher inner list reached maximum size of "
          ++ toString s.pending_messages.length), s) := by
  simp [SyncedImuPublisher.Publish, hpause, hfull]

/-- Witness for C9: a paused gate with capacity 1 and one pending message
rejects a further message, returning the untouched state. -/
theorem Publish_overflow_atomic_witness :
    SyncedImuPublisher.Publish
        ⟨true, [⟨1, ⟨1, 1, 1⟩, ⟨2, 2, 2⟩⟩], 1, true, []⟩ ⟨3, ⟨0, 0, 0⟩, ⟨9, 9, 9⟩⟩ =
      (Except.error "SyncedImuPublisher inner list reached maximum size of 1",
        ⟨true, [⟨1, ⟨1, 1, 1⟩, ⟨2, 2, 2⟩⟩], 1, true, []⟩) :=
  (Publish_overflow_atomic ⟨true, [⟨1, ⟨1, 1, 1⟩, ⟨2, 2, 2⟩⟩], 1, true, []⟩
      ⟨3, ⟨0, 0, 0⟩, ⟨9, 9, 9⟩⟩ rfl rfl).trans (by rfl)

/-- While paused with enough remaining capacity, a run of `Publish` calls
succeeds and appends every message, in submission order, to the pending FIFO,
changing nothing else. -/
lemma PublishList_enqueues (msgs : List ImuMsg) :
    ∀ s : SyncedImuPublisher, s.pause_mode = true →
      s.pending_messages.length + msgs.length ≤ s.waiting_list_size →
      SyncedImuPublisher.PublishList s msgs =
        (Except.ok (), { s with pending_messages := s.pending_messages ++ msgs }) := by
  induction msgs with
  | nil =>
    intro s hpause hlen
    simp [SyncedImuPublisher.PublishList]
  | cons m rest ih =>
    intro s hpause hlen
    have hlt : ¬ s.waiting_list_size ≤ s.pending_messages.length := by
      simp only [List.length_cons] at hlen
      omega
    have hpub : SyncedImuPublisher.Publish s m =
        (Except.ok (), { s with pending_messages := s.pending_messages ++ [m] }) := by
      simp [SyncedImuPublisher.Publish, hpause, hlt]
    simp only [SyncedImuPublisher.PublishList, hpub]
    rw [ih _ (by simpa using hpause)
      (by simp only [List.length_append, List.length_cons, List.length_nil] at hlen ⊢
          omega)]
    simp

/-- C2: from a paused gate with an empty pending queue and capacity `N`, a run
of `N` `Publish` calls succeeds, queueing exactly those messages in submission
order with nothing delivered downstream yet; one more `Publish` while still
paused throws, changing nothing; `Resume` then delivers exactly the `N` queued
messages downstream in their original order and unpauses the gate; and a
message submitted after the `Resume` is delivered directly, after all of
them. -/
theorem backpressure_gate_fifo (s : SyncedImuPublisher) (msgs : List ImuMsg)
    (extra after : ImuMsg)
    (hpause : s.pause_mode = true)
    (hempty : s.pending_messages = [])
    (hN : msgs.length = s.waiting_list_size) :
    SyncedImuPublisher.PublishList s msgs =
      (Except.ok (), { s with pending_messages := msgs })
    ∧ ({ s with pending_messages := msgs } : SyncedImuPublisher).published =
        s.published
    ∧ SyncedImuPublisher.Publish { s with pending_messages := msgs } extra =
        (Except.error ("SyncedImuPublisher inner list reached maximum size of "
            ++ toString msgs.length), { s with pending_messages := msgs })
    ∧ (SyncedImuPublisher.Resume { s with pending_messages := msgs }).published =
        s.published ++ msgs
    ∧ (SyncedImuPublisher.Resume { s with pending_messages := msgs }).pause_mode =
        false
    ∧ (SyncedImuPublisher.Publish
          (SyncedImuPublisher.Resume { s with pending_messages := msgs })
          after).2.published = s.published ++ msgs ++ [after] := by
  refine ⟨?_, rfl, ?_, ?_, rfl, ?_⟩
  · have h := PublishList_enqueues msgs s hpause
      (by rw [hempty]; simpa using Nat.le_of_eq hN)
    rw [hempty] at h
    simpa using h
  · simp [SyncedImuPublisher.Publish, hpause, hN]
  · simp [SyncedImuPublisher.Resume, SyncedImuPublisher.PublishPendingMessages]
  · simp [SyncedImuPublisher.Publish, SyncedImuPublisher.Resume,
      SyncedImuPublisher.PublishPendingMessages]

/-- Witness for C2 at capacity 2: two messages queued while paused, a third
rejected, the flush after `Resume` in FIFO order, and direct delivery
afterwards. -/
theorem backpressure_gate_fifo_witness :
    SyncedImuPublisher.PublishList ⟨true, [], 2, true, [⟨0, ⟨0, 0, 0⟩, ⟨7, 7, 7⟩⟩]⟩
        [⟨1, ⟨1, 0, 0⟩, ⟨0, 1, 0⟩⟩, ⟨2, ⟨2, 0, 0⟩, ⟨0, 2, 0⟩⟩] =
      (Except.ok (),
        ⟨true, [⟨1, ⟨1, 0, 0⟩, ⟨0, 1, 0⟩⟩, ⟨2, ⟨2, 0, 0⟩, ⟨0, 2, 0⟩⟩], 2, true,
          [⟨0, ⟨0, 0, 0⟩, ⟨7, 7, 7⟩⟩]⟩)
    ∧ (⟨true, [⟨1, ⟨1, 0, 0⟩, ⟨0, 1, 0⟩⟩, ⟨2, ⟨2, 0, 0⟩, ⟨0, 2, 0⟩⟩], 2, true,
          [⟨0, ⟨0, 0, 0⟩, ⟨7, 7, 7⟩⟩]⟩ : SyncedImuPublisher).published =
        [⟨0, ⟨0, 0, 0⟩, ⟨7, 7, 7⟩⟩]
    ∧ SyncedImuPublisher.Publish
          ⟨true, [⟨1, ⟨1, 0, 0⟩, ⟨0, 1, 0⟩⟩, ⟨2, ⟨2, 0, 0⟩, ⟨0, 2, 0⟩⟩], 2, true,
            [⟨0, ⟨0, 0, 0⟩, ⟨7, 7, 7⟩⟩]⟩ ⟨3, ⟨3, 0, 0⟩, ⟨0, 3, 0⟩⟩ =
        (Except.error "SyncedImuPublisher inner list reached maximum size of 2",
          ⟨true, [⟨1, ⟨1, 0, 0⟩, ⟨0, 1, 0⟩⟩, ⟨2, ⟨2, 0, 0⟩, ⟨0, 2, 0⟩⟩], 2, true,
            [⟨0, ⟨0, 0, 0⟩, ⟨7, 7, 7⟩⟩]⟩)
    ∧ (SyncedImuPublisher.Resume
          ⟨true, [⟨1, ⟨1, 0, 0⟩, ⟨0, 1, 0⟩⟩, ⟨2, ⟨2, 0, 0⟩, ⟨0, 2, 0⟩⟩], 2, true,
            [⟨0, ⟨0, 0, 0⟩, ⟨7, 7, 7⟩⟩]⟩).published =
        [⟨0, ⟨0, 0, 0⟩, ⟨7, 7, 7⟩⟩, ⟨1, ⟨1, 0, 0⟩, ⟨0, 1, 0⟩⟩, ⟨2, ⟨2, 0, 0⟩, ⟨0, 2, 0⟩⟩]
    ∧ (SyncedImuPublisher.Resume
          ⟨true, [⟨1, ⟨1, 0, 0⟩, ⟨0, 1, 0⟩⟩, ⟨2, ⟨2, 0, 0⟩, ⟨0, 2, 0⟩⟩], 2, true,
            [⟨0, ⟨0, 0, 0⟩, ⟨7, 7, 7⟩⟩]⟩).pause_mode = false
    ∧ (SyncedImuPublisher.Publish
          (SyncedImuPublisher.Resume
            ⟨true, [⟨1, ⟨1, 0, 0⟩, ⟨0, 1, 0⟩⟩, ⟨2, ⟨2, 0, 0⟩, ⟨0, 2, 0⟩⟩], 2, true,
              [⟨0, ⟨0, 0, 0⟩, ⟨7, 7, 7⟩⟩]⟩) ⟨4, ⟨4, 0, 0⟩, ⟨0, 4, 0⟩⟩).2.published =
        [⟨0, ⟨0, 0, 0⟩, ⟨7, 7, 7⟩⟩, ⟨1, ⟨1, 0, 0⟩, ⟨0, 1, 0⟩⟩, ⟨2, ⟨2, 0, 0⟩, ⟨0, 2, 0⟩⟩,
          ⟨4, ⟨4, 0, 0⟩, ⟨0, 4, 0⟩⟩] :=
  backpressure_gate_fifo ⟨true, [], 2, true, [⟨0, ⟨0, 0, 0⟩, ⟨7, 7, 7⟩⟩]⟩
    [⟨1, ⟨1, 0, 0⟩, ⟨0, 1, 0⟩⟩, ⟨2, ⟨2, 0, 0⟩, ⟨0, 2, 0⟩⟩]
    ⟨3, ⟨3, 0, 0⟩, ⟨0, 3, 0⟩⟩ ⟨4, ⟨4, 0, 0⟩, ⟨0, 4, 0⟩⟩ rfl rfl rfl

/-- C3 (behavior at concrete inputs): the priority scan selects depth when a
depth profile is available, falls back to pose when only pose is available, and
— when neither is available — dereferences the past-the-end iterator of the
priority vector inside the loop condition (undefined behavior) before the
post-loop throw can execute. -/
theorem SetBaseStream_eval :
    SetBaseStream [POSE, GYRO] = BaseStreamOutcome.selected POSE
    ∧ SetBaseStream [(Rs2Stream.color, 0), DEPTH, POSE] =
        BaseStreamOutcome.selected DEPTH
    ∧ SetBaseStream [(Rs2Stream.color, 0), GYRO] = BaseStreamOutcome.derefPastEnd
    ∧ SetBaseStream [] = BaseStreamOutcome.derefPastEnd := by
  decide

/-- C6: the guarded depth clip preserves the buffer's length; a clipping
distance ≤ 0 leaves the buffer untouched (the routine never runs); a positive
clipping distance zeroes exactly the pixels strictly above the converted
integer threshold and leaves the others unchanged; and with depth scale 0.001
and clipping distance 1.0 that threshold is 1000. -/
theorem clip_depth_spec (depth_scale_meters clipping_distance : ℚ)
    (p_depth_frame : List ℕ) :
    (clip_depth_guarded depth_scale_meters p_depth_frame clipping_distance).length =
      p_depth_frame.length
    ∧ (clipping_distance ≤ 0 →
        clip_depth_guarded depth_scale_meters p_depth_frame clipping_distance =
          p_depth_frame)
    ∧ (0 < clipping_distance → ∀ i : ℕ,
        (clip_depth_guarded depth_scale_meters p_depth_frame clipping_distance).getD i 0 =
          if clipping_value clipping_distance depth_scale_meters <
              p_depth_frame.getD i 0 then 0
          else p_depth_frame.getD i 0)
    ∧ clipping_value 1 (1 / 1000) = 1000 := by
  have hcv : clipping_value 1 (1 / 1000) = 1000 := by
    have hq : (1 : ℚ) / (1 / 1000) = 1000 := by norm_num
    rw [clipping_value, hq, Rat.floor_def']
    norm_num
    decide
  refine ⟨?_, ?_, ?_, hcv⟩
  · unfold clip_depth_guarded
    split <;> simp [clip_depth]
  · intro hle
    simp [clip_depth_guarded, not_lt.mpr hle]
  · intro hpos i
    simp only [clip_depth_guarded, if_pos hpos, clip_depth]
    rw [List.getD_eq_getElem?_getD, List.getD_eq_getElem?_getD, List.getElem?_map]
    cases p_depth_frame[i]? with
    | none => simp
    | some v => simp

/-- Witness for C6: with scale 0.001 and clipping distance 1.0, the sample 1001
is zeroed and the sample 1000 kept; a non-positive clipping distance leaves the
buffer unchanged. -/
theorem clip_depth_spec_witness :
    (0 : ℚ) < 1
    ∧ (clip_depth_guarded (1 / 1000) [500, 1000, 1001, 60000] 1).getD 2 0 = 0
    ∧ (clip_depth_guarded (1 / 1000) [500, 1000, 1001, 60000] 1).getD 1 0 = 1000
    ∧ ((-2 : ℚ) ≤ 0
        ∧ clip_depth_guarded (1 / 1000) [500, 2000] (-2) = [500, 2000]) := by
  refine ⟨by norm_num, ?_, ?_,
    ⟨by norm_num, (clip_depth_spec (1 / 1000) (-2) [500, 2000]).2.1 (by norm_num)⟩⟩
  · have h := (clip_depth_spec (1 / 1000) 1 [500, 1000, 1001, 60000]).2.2.1
      (by norm_num) 2
    rw [h, (clip_depth_spec (1 / 1000) 1 [500, 1000, 1001, 60000]).2.2.2]
    decide
  · have h := (clip_depth_spec (1 / 1000) 1 [500, 1000, 1001, 60000]).2.2.1
      (by norm_num) 1
    rw [h, (clip_depth_spec (1 / 1000) 1 [500, 1000, 1001, 60000]).2.2.2]
    decide

/-- Running the dedup loop keeps, among point-cloud frames, exactly what was
already accumulated plus — unless one was already taken — the first point-cloud
frame of the remaining input. -/
lemma dedupLoop_filter_points (frameset : List RsFrame) :
    ∀ (points_in_set : Bool) (is_in_set : List stream_index_pair)
      (acc : List RsFrame),
      (dedupLoop frameset points_in_set is_in_set acc).filter
          (fun f => f.is_points) =
        acc.filter (fun f => f.is_points) ++
          (if points_in_set then [] else
            (frameset.filter (fun f => f.is_points)).take 1) := by
  induction frameset with
  | nil =>
    intro pts seen acc
    cases pts <;> simp [dedupLoop]
  | cons f rest ih =>
    intro pts seen acc
    cases hfp : f.is_points with
    | true =>
      cases pts with
      | false =>
        simp only [dedupLoop, hfp, if_true, ite_true, if_pos rfl]
        rw [ih]
        simp [List.filter_append, hfp, List.filter_cons]
      | true =>
        simp only [dedupLoop, hfp, if_true]
        rw [if_neg (by simp), ih]
        simp [hfp, List.filter_cons]
    | false =>
      by_cases hmem : f.sip ∈ seen
      · simp only [dedupLoop, hfp, Bool.false_eq_true, if_false, if_pos hmem]
        rw [ih]
        simp [hfp, List.filter_cons]
      · simp only [dedupLoop, hfp, Bool.false_eq_true, if_false, if_neg hmem]
        rw [ih]
        simp [List.filter_append, hfp, List.filter_cons]

/-- Running the dedup loop keeps, among non-point-cloud frames of a given
stream identity, exactly what was already accumulated plus — unless that
identity was already seen — the first such frame of the remaining input. -/
lemma dedupLoop_filter_sip (frameset : List RsFrame) (s : stream_index_pair) :
    ∀ (points_in_set : Bool) (is_in_set : List stream_index_pair)
      (acc : List RsFrame),
      (dedupLoop frameset points_in_set is_in_set acc).filter
          (fun f => !f.is_points && decide (f.sip = s)) =
        acc.filter (fun f => !f.is_points && decide (f.sip = s)) ++
          (if s ∈ is_in_set then [] else
            (frameset.filter (fun f => !f.is_points && decide (f.sip = s))).take 1) := by
  induction frameset with
  | nil =>
    intro pts seen acc
    by_cases hs : s ∈ seen <;> simp [dedupLoop, hs]
  | cons f rest ih =>
    intro pts seen acc
    cases hfp : f.is_points with
    | true =>
      cases pts with
      | false =>
        simp only [dedupLoop, hfp, if_true, ite_true, if_pos rfl]
        rw [ih]
        simp [List.filter_append, hfp, List.filter_cons]
      | true =>
        simp only [dedupLoop, hfp, if_true]
        rw [if_neg (by simp), ih]
        simp [hfp, List.filter_cons]
    | false =>
      by_cases hmem : f.sip ∈ seen
      · simp only [dedupLoop, hfp, Bool.false_eq_true, if_false, if_pos hmem]
        rw [ih]
        by_cases hs : s ∈ seen
        · simp [hs]
        · have hne : ¬ (f.sip = s) := fun h => hs (h ▸ hmem)
          simp [hs, hfp, List.filter_cons, hne]
      · simp only [dedupLoop, hfp, Bool.false_eq_true, if_false, if_neg hmem]
        rw [ih]
        by_cases heq : f.sip = s
        · subst heq
          simp [hmem, List.filter_append, hfp, List.filter_cons]
        · have hs2 : (s ∈ seen ++ [f.sip]) ↔ s ∈ seen := by
            simp [List.mem_append]
            intro h
            exact absurd h.symm heq
          rw [if_congr hs2 rfl rfl]
          simp [List.filter_append, hfp, List.filter_cons, heq]

/-- C5: walking the post-filter frame-set in iteration order, the published
selection keeps, among point-cloud frames, exactly the first one encountered
(regardless of identity), and, among the other frames, exactly the first
occurrence per stream identity; in particular a frame-set with two point-cloud
frames yields exactly one (the first), and a frame-set with two frames of the
same identity yields exactly one (the first). -/
theorem frame_dedup_spec (frameset : List RsFrame) :
    (framesToPublish frameset).filter (fun f => f.is_points) =
      (frameset.filter (fun f => f.is_points)).take 1
    ∧ (∀ s : stream_index_pair,
        (framesToPublish frameset).filter
            (fun f => !f.is_points && decide (f.sip = s)) =
          (frameset.filter (fun f => !f.is_points && decide (f.sip = s))).take 1)
    ∧ framesToPublish
          [⟨Rs2Stream.depth, 0, true, 1⟩, ⟨Rs2Stream.color, 0, true, 2⟩] =
        [⟨Rs2Stream.depth, 0, true, 1⟩]
    ∧ framesToPublish
          [⟨Rs2Stream.infrared, 1, false, 3⟩, ⟨Rs2Stream.infrared, 1, false, 4⟩] =
        [⟨Rs2Stream.infrared, 1, false, 3⟩] := by
  refine ⟨?_, ?_, by decide, by decide⟩
  · simpa using dedupLoop_filter_points frameset false [] []
  · intro s
    simpa using dedupLoop_filter_sip frameset s false [] []

/-- The drain loop's second component is always the last sample of a nonempty
history: `crnt_imu` holds the last popped element when the loop ends. -/
lemma imuDrain_last (hist : List CimuData) (x : CimuData) :
    ∀ (accel0 : CimuData) (gyros : List CimuData) (imu_msgs : List ImuMsg)
      (last : CimuData),
      (imuDrain (hist ++ [x]) accel0 gyros imu_msgs last).2 = x := by
  induction hist with
  | nil =>
    intro a g m l
    simp only [List.nil_append, imuDrain]
    split_ifs <;> simp [imuDrain]
  | cons c t ih =>
    intro a g m l
    simp only [List.cons_append, imuDrain]
    split_ifs <;> exact ih _ _ _ _

/-- Draining one segment: with `accel0` set, a run of in-window gyro samples
followed by the accel sample `accel1` accumulates the gyros and then emits one
interpolated united message per queued gyro (in order), continuing with
`accel1` as the new `accel0` and an empty gyro queue. -/
lemma imuDrain_segment (gs : List CimuData) (accel0 accel1 : CimuData)
    (tail : List CimuData)
    (hset : accel0.is_set = true) (htype : accel1.m_type = ACCEL)
    (hg : ∀ g ∈ gs, g.m_type = GYRO ∧ accel0.m_time_ns ≤ g.m_time_ns) :
    ∀ (gyros : List CimuData) (imu_msgs : List ImuMsg) (last : CimuData),
      imuDrain (gs ++ accel1 :: tail) accel0 gyros imu_msgs last =
        imuDrain tail accel1 []
          (imu_msgs ++ (gyros ++ gs).map (unitedOf accel0 accel1)) accel1 := by
  induction gs with
  | nil =>
    intro gyros msgs last
    simp only [List.nil_append, imuDrain]
    rw [if_neg (by simp [hset]), if_pos ⟨hset, htype⟩]
    simp
  | cons g gs2 ih =>
    intro gyros msgs last
    have hgg := hg g (by simp)
    have hne : ¬ (g.m_type = ACCEL) := by
      rw [hgg.1]
      decide
    simp only [List.cons_append, imuDrain]
    rw [if_neg (by simp [hne]), if_neg (by simp [hne]),
      if_pos ⟨hset, hgg.2, hgg.1⟩]
    simp only [List.append_eq]
    rw [ih (fun g2 h2 => hg g2 (by simp [h2]))]
    have hl : (gyros ++ [g]) ++ gs2 = gyros ++ g :: gs2 := by simp
    rw [hl]

/-- Draining a nonempty well-formed segment chain from a set `accel0` emits
exactly the per-segment interpolated messages, in order, and ends holding the
chain's last accel sample. -/
lemma imuDrain_chain (ps : List (List CimuData × CimuData)) :
    ∀ (accel0 : CimuData) (imu_msgs : List ImuMsg) (last : CimuData),
      accel0.is_set = true → chainOk accel0 ps → ps ≠ [] →
      imuDrain (flattenPairs ps) accel0 [] imu_msgs last =
        (imu_msgs ++ expectedOut accel0 ps, lastAccel accel0 ps) := by
  induction ps with
  | nil =>
    intro a m l _ _ hne
    exact absurd rfl hne
  | cons seg rest ih =>
    intro accel0 msgs last hset hchain _
    obtain ⟨gyros, accel1⟩ := seg
    obtain ⟨hg, htype, hset1, _, hrest⟩ := hchain
    rw [flattenPairs]
    rw [imuDrain_segment gyros accel0 accel1 (flattenPairs rest) hset htype
      (fun g h => ⟨(hg g h).1, (hg g h).2.1⟩)]
    cases rest with
    | nil =>
      simp [flattenPairs, imuDrain, expectedOut, lastAccel]
    | cons seg2 rest2 =>
      rw [ih _ _ _ hset1 hrest (by simp)]
      simp [expectedOut, lastAccel]

/-- Flattening segments distributes over append. -/
lemma flattenPairs_append (ps qs : List (List CimuData × CimuData)) :
    flattenPairs (ps ++ qs) = flattenPairs ps ++ flattenPairs qs := by
  induction ps with
  | nil => simp [flattenPairs]
  | cons seg rest ih =>
    obtain ⟨g, a⟩ := seg
    simp [flattenPairs, ih]

/-- The last accel of a chain ending in a given segment is that segment's
accel. -/
lemma lastAccel_append (accel0 accelN : CimuData)
    (ps : List (List CimuData × CimuData)) (gsN : List CimuData) :
    lastAccel accel0 (ps ++ [(gsN, accelN)]) = accelN := by
  induction ps generalizing accel0 with
  | nil => simp [lastAccel]
  | cons seg rest ih =>
    obtain ⟨g, a⟩ := seg
    simp [lastAccel, ih]

/-- The final accel sample of a well-formed chain is accel-typed and set. -/
lemma chainOk_append_last (accel0 accelN : CimuData)
    (ps : List (List CimuData × CimuData)) (gsN : List CimuData)
    (h : chainOk accel0 (ps ++ [(gsN, accelN)])) :
    accelN.m_type = ACCEL ∧ accelN.is_set = true := by
  induction ps generalizing accel0 with
  | nil => exact ⟨h.2.1, h.2.2.1⟩
  | cons seg rest ih =>
    obtain ⟨g, a⟩ := seg
    exact ih a h.2.2.2.2

/-- C1: on an accelerometer arrival that makes the post-append history at
least 3 long, when the history consists of an initial accel sample followed by
well-formed (gyro-run, accel) segments — every gyro timestamped at/after the
preceding accel and at/before the following one, consecutive accel times
strictly increasing — the call emits exactly one united reading per gyro
sample, in gyro arrival order, whose accelerometer vector is the componentwise
`lerp(a, b, alpha) = a*(1-alpha) + b*alpha` between the surrounding accel pair
at `alpha = (gyro_time - accel0_time) / (accel1_time - accel0_time)`, and
leaves the triggering accel as the sole history element. -/
theorem imu_linear_interpolation_spec
    (accel0 accelN : CimuData) (ps : List (List CimuData × CimuData))
    (gsN : List CimuData)
    (h0type : accel0.m_type = ACCEL) (h0set : accel0.is_set = true)
    (hchain : chainOk accel0 (ps ++ [(gsN, accelN)]))
    (hlen : 3 ≤ ((accel0 :: (flattenPairs ps ++ gsN)) ++ [accelN]).length) :
    FillImuData_LinearInterpolation (accel0 :: (flattenPairs ps ++ gsN)) accelN =
      ([accelN], expectedOut accel0 (ps ++ [(gsN, accelN)])) := by
  have hNtype := (chainOk_append_last accel0 accelN ps gsN hchain).1
  have hcond : ¬(accelN.m_type ≠ ACCEL ∨
      ((accel0 :: (flattenPairs ps ++ gsN)) ++ [accelN]).length < 3) := by
    push_neg
    exact ⟨hNtype, hlen⟩
  have hflat : (accel0 :: (flattenPairs ps ++ gsN)) ++ [accelN] =
      accel0 :: flattenPairs (ps ++ [(gsN, accelN)]) := by
    rw [flattenPairs_append]
    simp [flattenPairs]
  unfold FillImuData_LinearInterpolation
  rw [if_neg hcond, hflat]
  simp only [imuDrain]
  rw [if_pos ⟨rfl, h0type⟩]
  rw [imuDrain_chain _ _ _ _ h0set hchain (by simp)]
  rw [lastAccel_append]
  simp

/-- Witness for C1: accel samples at t=0 with value (0,0,0) and t=10 with value
(10,10,10), and a gyro sample at t=5, produce one united reading whose
accelerometer component is exactly (5,5,5). -/
theorem imu_linear_interpolation_spec_witness :
    FillImuData_LinearInterpolation
        [⟨ACCEL, ⟨0, 0, 0⟩, 0, true⟩, ⟨GYRO, ⟨1, 2, 3⟩, 5, true⟩]
        ⟨ACCEL, ⟨10, 10, 10⟩, 10, true⟩ =
      ([⟨ACCEL, ⟨10, 10, 10⟩, 10, true⟩], [⟨5, ⟨1, 2, 3⟩, ⟨5, 5, 5⟩⟩]) := by
  have hch : chainOk ⟨ACCEL, ⟨0, 0, 0⟩, 0, true⟩
      ([] ++ [([⟨GYRO, ⟨1, 2, 3⟩, 5, true⟩], ⟨ACCEL, ⟨10, 10, 10⟩, 10, true⟩)]) := by
    refine ⟨?_, rfl, rfl, by norm_num, trivial⟩
    intro x hx
    simp only [List.mem_singleton] at hx
    subst hx
    exact ⟨rfl, by norm_num, by norm_num⟩
  have h := imu_linear_interpolation_spec ⟨ACCEL, ⟨0, 0, 0⟩, 0, true⟩
      ⟨ACCEL, ⟨10, 10, 10⟩, 10, true⟩ [] [⟨GYRO, ⟨1, 2, 3⟩, 5, true⟩]
      rfl rfl hch (by simp [flattenPairs])
  refine h.trans ?_
  simp only [expectedOut, List.map, unitedOf, CreateUnitedMessage, lerpVec3, lerp,
    List.append_nil, Prod.mk.injEq, List.cons.injEq, ImuMsg.mk.injEq, Vec3.mk.injEq]
  norm_num

/-- C10: the linear-interpolation policy emits output only on accelerometer
arrivals — a gyro-typed input only appends to the history and returns no
messages — and a draining call (an accel arrival with post-append history
length at least 3) leaves the history holding exactly the triggering accel
sample. -/
theorem imu_linear_history_invariant :
    (∀ (imu_history : List CimuData) (g : CimuData), g.m_type = GYRO →
        FillImuData_LinearInterpolation imu_history g = (imu_history ++ [g], []))
    ∧ (∀ (imu_history : List CimuData) (a : CimuData), a.m_type = ACCEL →
        3 ≤ (imu_history ++ [a]).length →
        (FillImuData_LinearInterpolation imu_history a).1 = [a]) := by
  constructor
  · intro hist g hg
    have hne : g.m_type ≠ ACCEL := by
      rw [hg]
      decide
    unfold FillImuData_LinearInterpolation
    rw [if_pos (Or.inl hne)]
  · intro hist a ha hlen
    have hcond : ¬(a.m_type ≠ ACCEL ∨ (hist ++ [a]).length < 3) := by
      push_neg
      exact ⟨ha, hlen⟩
    unfold FillImuData_LinearInterpolation
    rw [if_neg hcond]
    show [(imuDrain (hist ++ [a]) CimuData.unset [] [] CimuData.unset).2] = [a]
    rw [imuDrain_last hist a]

/-- Witness for C10: a lone gyro sample only extends the history with no
output, and an accel arrival on a length-3 history leaves exactly that accel
behind. -/
theorem imu_linear_history_invariant_witness :
    FillImuData_LinearInterpolation [] ⟨GYRO, ⟨1, 2, 3⟩, 4, true⟩ =
      ([⟨GYRO, ⟨1, 2, 3⟩, 4, true⟩], [])
    ∧ (FillImuData_LinearInterpolation
          [⟨ACCEL, ⟨0, 0, 0⟩, 0, true⟩, ⟨GYRO, ⟨6, 6, 6⟩, 5, true⟩]
          ⟨ACCEL, ⟨9, 9, 9⟩, 10, true⟩).1 = [⟨ACCEL, ⟨9, 9, 9⟩, 10, true⟩] :=
  ⟨imu_linear_history_invariant.1 [] ⟨GYRO, ⟨1, 2, 3⟩, 4, true⟩ rfl,
    imu_linear_history_invariant.2 [⟨ACCEL, ⟨0, 0, 0⟩, 0, true⟩, ⟨GYRO, ⟨6, 6, 6⟩, 5, true⟩]
      ⟨ACCEL, ⟨9, 9, 9⟩, 10, true⟩ rfl (by simp)⟩

/-- C7: the stereo update writes only the right record's rotation and
projection — the left record is returned untouched, and the right record's
intrinsics, distortion, dimensions and model tag are preserved; the
translation's y and z components are irrelevant (forced to 0); and for
identity rotation with translation `(B, 0, 0)`, starting from the right record
produced by the per-stream update (identity rotation, projection mirroring
`K_right`), the resulting right projection is `K_right * [I | (B,0,0)]`: a pure
horizontal translation column `(fx*B, 0, 0)` appended to `K_right`. -/
theorem stereo_calibration_spec (ext : Rs2Extrinsics)
    (ci_left ci_right : CameraInfo) (t0 ty tz B fx fy ppx ppy : ℚ)
    (w h : ℕ) (coeffs : List ℚ) :
    (updateExtrinsicsCalibData ext ci_left ci_right).1 = ci_left
    ∧ (updateExtrinsicsCalibData ext ci_left ci_right).2.k = ci_right.k
    ∧ (updateExtrinsicsCalibData ext ci_left ci_right).2.d = ci_right.d
    ∧ (updateExtrinsicsCalibData ext ci_left ci_right).2.width = ci_right.width
    ∧ (updateExtrinsicsCalibData ext ci_left ci_right).2.height = ci_right.height
    ∧ (updateExtrinsicsCalibData ext ci_left ci_right).2.distortion_model =
        ci_right.distortion_model
    ∧ updateExtrinsicsCalibData ⟨ext.rotation, [t0, ty, tz]⟩ ci_left ci_right =
        updateExtrinsicsCalibData ⟨ext.rotation, [t0, 0, 0]⟩ ci_left ci_right
    ∧ (updateExtrinsicsCalibData ⟨[1, 0, 0, 0, 1, 0, 0, 0, 1], [B, 0, 0]⟩ ci_left
          (updateStreamCalibData ⟨w, h, fx, fy, ppx, ppy, false, coeffs⟩ false)).2 =
        { updateStreamCalibData ⟨w, h, fx, fy, ppx, ppy, false, coeffs⟩ false with
          r := [1, 0, 0, 0, 1, 0, 0, 0, 1]
          p := [fx, 0, ppx, fx * B, 0, fy, ppy, 0, 0, 0, 1, 0] } := by
  refine ⟨rfl, rfl, rfl, rfl, rfl, rfl, rfl, ?_⟩
  simp only [updateExtrinsicsCalibData, updateStreamCalibData, Bool.false_eq_true,
    if_false, List.getD_cons_zero, List.getD_cons_succ, CameraInfo.mk.injEq]
  norm_num

end RealSense
